import Mathlib

/-!
Shallow embedding of the IAM policy-document builder
(`packages/@aws-cdk/aws-iam/lib/policy-document.ts`, provided as
`src/unnamed/part_002`) and of the MSK `Cluster` construct validation
(`src/packages/@aws-cdk/aws-msk/lib/cluster.ts`).

JavaScript values flowing through the builder (action entries, principal
values, condition payloads, policy documents) are modelled by the inductive
type `JsVal`: `undefined` stands for JavaScript `undefined` (a field whose value
is `undefined` is absent from the emitted JSON), `str` for strings, `arr` for
arrays and `obj` for plain objects, an object being an insertion-ordered
association list of distinct string keys, exactly as JavaScript preserves
insertion order of string-keyed properties.
-/

inductive JsVal where
  | undefined : JsVal
  | str : String → JsVal
  | arr : List JsVal → JsVal
  | obj : List (String × JsVal) → JsVal
deriving Repr

mutual

def JsVal.decEq : (a b : JsVal) → Decidable (a = b)
  | .undefined, .undefined => .isTrue rfl
  | .str a, .str b =>
    match String.decEq a b with
    | .isTrue h => .isTrue (congrArg JsVal.str h)
    | .isFalse h => .isFalse (fun hh => h (JsVal.str.inj hh))
  | .arr xs, .arr ys =>
    match JsVal.decEqList xs ys with
    | .isTrue h => .isTrue (congrArg JsVal.arr h)
    | .isFalse h => .isFalse (fun hh => h (JsVal.arr.inj hh))
  | .obj xs, .obj ys =>
    match JsVal.decEqObj xs ys with
    | .isTrue h => .isTrue (congrArg JsVal.obj h)
    | .isFalse h => .isFalse (fun hh => h (JsVal.obj.inj hh))
  | .undefined, .str _ => .isFalse (fun h => JsVal.noConfusion h)
  | .undefined, .arr _ => .isFalse (fun h => JsVal.noConfusion h)
  | .undefined, .obj _ => .isFalse (fun h => JsVal.noConfusion h)
  | .str _, .undefined => .isFalse (fun h => JsVal.noConfusion h)
  | .str _, .arr _ => .isFalse (fun h => JsVal.noConfusion h)
  | .str _, .obj _ => .isFalse (fun h => JsVal.noConfusion h)
  | .arr _, .undefined => .isFalse (fun h => JsVal.noConfusion h)
  | .arr _, .str _ => .isFalse (fun h => JsVal.noConfusion h)
  | .arr _, .obj _ => .isFalse (fun h => JsVal.noConfusion h)
  | .obj _, .undefined => .isFalse (fun h => JsVal.noConfusion h)
  | .obj _, .str _ => .isFalse (fun h => JsVal.noConfusion h)
  | .obj _, .arr _ => .isFalse (fun h => JsVal.noConfusion h)

def JsVal.decEqList : (xs ys : List JsVal) → Decidable (xs = ys)
  | [], [] => .isTrue rfl
  | [], _ :: _ => .isFalse (fun h => List.noConfusion h)
  | _ :: _, [] => .isFalse (fun h => List.noConfusion h)
  | x :: xs, y :: ys =>
    match JsVal.decEq x y with
    | .isFalse h => .isFalse (fun hh => h (List.cons.inj hh).1)
    | .isTrue h1 =>
      match JsVal.decEqList xs ys with
      | .isTrue h2 => .isTrue (by rw [h1, h2])
      | .isFalse h2 => .isFalse (fun hh => h2 (List.cons.inj hh).2)

def JsVal.decEqObj : (xs ys : List (String × JsVal)) → Decidable (xs = ys)
  | [], [] => .isTrue rfl
  | [], _ :: _ => .isFalse (fun h => List.noConfusion h)
  | _ :: _, [] => .isFalse (fun h => List.noConfusion h)
  | (k1, v1) :: xs, (k2, v2) :: ys =>
    match String.decEq k1 k2 with
    | .isFalse h => .isFalse (fun hh => h (congrArg (fun l => (l.headD ("", JsVal.undefined)).1) hh))
    | .isTrue hk =>
      match JsVal.decEq v1 v2 with
      | .isFalse h => .isFalse (fun hh => h (congrArg (fun l => (l.headD ("", JsVal.undefined)).2) hh))
      | .isTrue hv =>
        match JsVal.decEqObj xs ys with
        | .isTrue ht => .isTrue (by rw [hk, hv, ht])
        | .isFalse h => .isFalse (fun hh => h (List.cons.inj hh).2)

end

instance : DecidableEq JsVal := JsVal.decEq

/-- JavaScript truthiness restricted to the values of `JsVal`:
`undefined` and the empty string are falsy; every array and object
(empty ones included) is truthy. -/
def truthy : JsVal → Bool
  | .undefined => false
  | .str s => !(s == "")
  | .arr _ => true
  | .obj _ => true

def JsVal.isUndefined : JsVal → Bool
  | .undefined => true
  | _ => false

/-- Property read `o[k]` on a JavaScript object: the value stored at the
first (and, keys being distinct, only) occurrence of the key, or
`undefined` when the key is absent. -/
def jsGet (kvs : List (String × JsVal)) (k : String) : JsVal :=
  match kvs.find? (fun p => p.1 == k) with
  | some p => p.2
  | none => .undefined

/-- Property write `o[k] = v` on a JavaScript object: an existing key keeps
its position and gets the new value; a new key is appended at the end. -/
def objSet (kvs : List (String × α)) (k : String) (v : α) : List (String × α) :=
  if kvs.any (fun p => p.1 == k) then
    kvs.map (fun p => if p.1 == k then (k, v) else p)
  else
    kvs ++ [(k, v)]

/-!
## PolicyStatement (`src/unnamed/part_002`, lines 48-283)

Field-by-field transcription of the mutable builder.  Action and resource
entries are the strings pushed by `addAction` / `addResource`; the principal
map is an insertion-ordered association list from a principal-type tag to
the list of values accumulated for that tag; conditions are an
insertion-ordered association list assigned to by key (`this.condition[key]
= value`).
-/

inductive PolicyStatementEffect where
  | Allow : PolicyStatementEffect
  | Deny : PolicyStatementEffect
deriving DecidableEq, Repr

/-- The string value of the TypeScript enum member. -/
def PolicyStatementEffect.value : PolicyStatementEffect → String
  | .Allow => "Allow"
  | .Deny => "Deny"

structure PolicyStatement where
  action : List String
  principal : List (String × List String)
  resource : List String
  condition : List (String × JsVal)
  effect : Option PolicyStatementEffect
  sid : Option String
deriving DecidableEq, Repr

/-- `new PolicyStatement(effect)` with an explicit effect argument. -/
def PolicyStatement.initWith (effect : PolicyStatementEffect) : PolicyStatement :=
  { action := [], principal := [], resource := [], condition := [],
    effect := some effect, sid := none }

/-- `new PolicyStatement()`: the `effect` parameter defaults to
`PolicyStatementEffect.Allow`. -/
def PolicyStatement.init : PolicyStatement :=
  PolicyStatement.initWith PolicyStatementEffect.Allow

def PolicyStatement.addAction (s : PolicyStatement) (action : String) : PolicyStatement :=
  { s with action := s.action ++ [action] }

def PolicyStatement.addActions (s : PolicyStatement) (actions : List String) : PolicyStatement :=
  actions.foldl PolicyStatement.addAction s

def PolicyStatement.addResource (s : PolicyStatement) (arn : String) : PolicyStatement :=
  { s with resource := s.resource ++ [arn] }

def PolicyStatement.addAllResources (s : PolicyStatement) : PolicyStatement :=
  s.addResource "*"

def PolicyStatement.addResources (s : PolicyStatement) (arns : List String) : PolicyStatement :=
  arns.foldl PolicyStatement.addResource s

def PolicyStatement.describe (s : PolicyStatement) (sid : String) : PolicyStatement :=
  { s with sid := some sid }

def PolicyStatement.allow (s : PolicyStatement) : PolicyStatement :=
  { s with effect := some PolicyStatementEffect.Allow }

def PolicyStatement.deny (s : PolicyStatement) : PolicyStatement :=
  { s with effect := some PolicyStatementEffect.Deny }

/-- `addCondition(key, value)`: `this.condition[key] = value`, a plain
JavaScript property assignment. -/
def PolicyStatement.addCondition (s : PolicyStatement) (key : String) (value : JsVal) : PolicyStatement :=
  { s with condition := objSet s.condition key value }

/-- `addConditions(conditions)`: `addCondition` for each key of the given
object, in its insertion order (`Object.keys`). -/
def PolicyStatement.addConditions (s : PolicyStatement) (conditions : List (String × JsVal)) : PolicyStatement :=
  conditions.foldl (fun st kv => st.addCondition kv.1 kv.2) s

/-- Modelled from the spec: `mergePrincipal` lives in the iam package's
`util.ts`, which is not among the provided source files; `addPrincipal`
imports it.  The spec says the fragment's principal values are appended
into the existing list for that tag, creating the tag entry if absent. -/
def mergePrincipal (target source : List (String × List String)) : List (String × List String) :=
  source.foldl
    (fun acc kv =>
      if acc.any (fun p => p.1 == kv.1) then
        acc.map (fun p => if p.1 == kv.1 then (p.1, p.2 ++ kv.2) else p)
      else
        acc ++ [kv])
    target

/-- `addPrincipal(principal)`: merge the fragment's principal map into the
statement's principal map, then add the fragment's conditions. -/
def PolicyStatement.addPrincipalFragment (s : PolicyStatement)
    (principalJson : List (String × List String))
    (conditions : List (String × JsVal)) : PolicyStatement :=
  let s1 := { s with principal := mergePrincipal s.principal principalJson }
  s1.addConditions conditions

/-- The nested helper `_norm` of `toJson`: `undefined` stays absent, an
array of zero elements becomes absent, a singleton array becomes its sole
element, a longer array is kept, an object with zero keys becomes absent,
anything else is returned unchanged. -/
def _norm : JsVal → JsVal
  | .undefined => .undefined
  | .arr [] => .undefined
  | .arr [v] => v
  | .arr vs => .arr vs
  | .obj [] => .undefined
  | .obj kvs => .obj kvs
  | v => v

/-- The nested helper `_normPrincipal` of `toJson`: an empty principal map
is absent; otherwise each tag's value list is normalized by `_norm` and
kept only when the normalized value is truthy; finally a result having
exactly one key `AWS` whose value is the string `"*"` collapses to the
bare string `"*"`. -/
def _normPrincipal (principal : List (String × List String)) : JsVal :=
  if principal.isEmpty then .undefined
  else
    let result : List (String × JsVal) :=
      principal.foldl
        (fun acc kv =>
          let normVal := _norm (.arr (kv.2.map .str))
          if truthy normVal then acc ++ [(kv.1, normVal)] else acc)
        []
    if result.length == 1 && jsGet result "AWS" == JsVal.str "*" then .str "*"
    else .obj result

/-- The object literal returned by `PolicyStatement.toJson`; a field whose
value is `JsVal.undefined` is absent from the emitted JSON. -/
structure StatementJson where
  Action : JsVal
  Condition : JsVal
  Effect : JsVal
  Principal : JsVal
  Resource : JsVal
  Sid : JsVal
deriving DecidableEq, Repr

def PolicyStatement.toJson (s : PolicyStatement) : StatementJson :=
  { Action := _norm (.arr (s.action.map .str))
  , Condition := _norm (.obj s.condition)
  , Effect := _norm (match s.effect with
      | none => .undefined
      | some e => .str e.value)
  , Principal := _normPrincipal s.principal
  , Resource := _norm (.arr (s.resource.map .str))
  , Sid := _norm (match s.sid with
      | none => .undefined
      | some v => .str v) }

/-- The statement rendered as a JavaScript object, dropping fields whose
value is `undefined` (what `JSON.stringify` / template resolution does). -/
def PolicyStatement.resolveJson (s : PolicyStatement) : JsVal :=
  let j := s.toJson
  .obj (([("Action", j.Action), ("Condition", j.Condition),
          ("Effect", j.Effect), ("Principal", j.Principal),
          ("Resource", j.Resource), ("Sid", j.Sid)]).filter
         (fun p => !(p.2.isUndefined)))

/-!
## PolicyDocument (`src/unnamed/part_002`, lines 6-46)

`resolve` bails out with no value when `isEmpty` holds, i.e. when zero
statements were added — the optional base document is not consulted by
`isEmpty`.  Otherwise the base document (an object; defaulting to `{}`)
gets its `Statement` defaulted to `[]`, its `Version` defaulted to the
constant `2012-10-17`, and the added statements appended to `Statement`.
A base document's `Statement`, when present, is an array (the only shape
`Array.prototype.concat` supports); statement tokens are resolved to their
JSON form as template resolution does.
-/

structure PolicyDocument where
  baseDocument : Option (List (String × JsVal))
  statements : List PolicyStatement
deriving Repr

def PolicyDocument.isEmpty (d : PolicyDocument) : Bool :=
  d.statements.length == 0

def PolicyDocument.addStatement (d : PolicyDocument) (statement : PolicyStatement) : PolicyDocument :=
  { d with statements := d.statements ++ [statement] }

/-- `doc.Statement || []` read as a list of statements. -/
def baseStatementList (doc : List (String × JsVal)) : List JsVal :=
  match jsGet doc "Statement" with
  | .arr xs => xs
  | _ => []

def PolicyDocument.resolve (d : PolicyDocument) : Option (List (String × JsVal)) :=
  if d.isEmpty then none
  else
    let doc0 := d.baseDocument.getD []
    let doc1 := objSet doc0 "Statement" (.arr (baseStatementList doc0))
    let doc2 := objSet doc1 "Version"
      (if truthy (jsGet doc1 "Version") then jsGet doc1 "Version" else .str "2012-10-17")
    let doc3 := objSet doc2 "Statement"
      (.arr (baseStatementList doc0 ++ d.statements.map PolicyStatement.resolveJson))
    some doc3

/-!
## MSK Cluster (`src/packages/@aws-cdk/aws-msk/lib/cluster.ts`)

The constructor runs five independent configuration checks, each emitting a
non-fatal diagnostic through `Annotations.of(this).addError`.  The
diagnostics are modelled by the inductive `ClusterDiag`, one constructor
per `addError` site, with `renderClusterDiag` giving the message text; the
props fields the checks read are gathered in `ClusterModelProps`.
-/

inductive ClientBrokerEncryption where
  | TLS : ClientBrokerEncryption
  | TLS_PLAINTEXT : ClientBrokerEncryption
  | PLAINTEXT : ClientBrokerEncryption
deriving DecidableEq, Repr

structure TlsAuthProps where
  certificateAuthorityArns : Option (List String)
deriving DecidableEq, Repr

structure SaslAuthProps where
  scram : Option Bool
deriving DecidableEq, Repr

structure ClientAuthenticationProps where
  tls : Option TlsAuthProps
  sasl : Option SaslAuthProps
deriving DecidableEq, Repr

structure EncryptionInTransitProps where
  clientBroker : Option ClientBrokerEncryption
  enableInCluster : Option Bool
deriving DecidableEq, Repr

structure ClusterModelProps where
  clusterName : String
  /-- `core.Token.isUnresolved(props.clusterName)`: the name is a deferred
  token, not a concrete string, at validation time. -/
  clusterNameIsUnresolvedToken : Bool
  /-- `subnetSelection.subnets.length` for the chosen vpc subnets. -/
  subnetCount : Nat
  /-- `brokerNodeGroupProps.securityGroups` (ids); `none` means a fresh
  security group is created. -/
  securityGroupIds : Option (List String)
  clientAuthentication : Option ClientAuthenticationProps
  encryptionInTransit : Option EncryptionInTransitProps
  /-- `brokerNodeGroupProps.storageInfo?.ebsStorageInfo?.volumeSize` -/
  volumeSize : Option Int
deriving DecidableEq, Repr

inductive ClusterDiag where
  | subnetCountTooLow : Nat → ClusterDiag
  | invalidClusterName : String → ClusterDiag
  | saslTlsExclusive : ClusterDiag
  | clientAuthRequiresTls : ClusterDiag
  | saslScramRequiresTlsOnly : ClusterDiag
  | volumeSizeOutOfRange : ClusterDiag
deriving DecidableEq, Repr

/-- The message each `addError` site passes (the cluster-name message also
interpolates the offending name and its length, wrapped in single quotes,
which the rendering elides). -/
def renderClusterDiag : ClusterDiag → String
  | .subnetCountTooLow got => s!"Cluster requires at least 2 subnets, got {got}"
  | .invalidClusterName name =>
    let len := name.length
    "The cluster name must only contain alphanumeric characters and have " ++
      s!"a maximum length of 64 characters. got: {name}. length: {len}"
  | .saslTlsExclusive => "Only one of SASL/SCRAM or TLS client authentication can be set."
  | .clientAuthRequiresTls =>
    "To enable client authentication, you must enabled TLS-encrypted " ++
      "traffic between clients and brokers."
  | .saslScramRequiresTlsOnly =>
    "To enable SASL/SCRAM authentication, you must only allow TLS-encrypted " ++
      "traffic between clients and brokers."
  | .volumeSizeOutOfRange => "EBS volume size should be in the range 1-16384"

/-- `/^[a-zA-Z0-9]+$/.test(name)`: at least one character, every character
an ASCII letter or digit. -/
def isAlphanumericName (s : String) : Bool :=
  !s.data.isEmpty && s.data.all (fun c => c.isAlpha || c.isDigit)

/-- Truthiness of `props.clientAuthentication?.tls?.certificateAuthorityArns`
(an array, hence truthy exactly when present). -/
def tlsCertArnsSet (p : ClusterModelProps) : Bool :=
  match p.clientAuthentication with
  | some ca =>
    match ca.tls with
    | some tls => tls.certificateAuthorityArns.isSome
    | none => false
  | none => false

/-- Truthiness of `props.clientAuthentication?.sasl?.scram` (a boolean,
hence truthy exactly when present and `true`). -/
def saslScramSet (p : ClusterModelProps) : Bool :=
  match p.clientAuthentication with
  | some ca =>
    match ca.sasl with
    | some sasl => sasl.scram == some true
    | none => false
  | none => false

/-- `props.encryptionInTransit?.clientBroker === mode` -/
def clientBrokerIs (p : ClusterModelProps) (mode : ClientBrokerEncryption) : Bool :=
  match p.encryptionInTransit with
  | some e => e.clientBroker == some mode
  | none => false

def subnetCountCheck (p : ClusterModelProps) : List ClusterDiag :=
  if p.subnetCount < 2 then [.subnetCountTooLow p.subnetCount] else []

/-- The cluster-name check: note the source guards with `&&`, so the
diagnostic fires only when the resolved name is non-alphanumeric AND longer
than 64 characters. -/
def clusterNameCheck (p : ClusterModelProps) : List ClusterDiag :=
  if !p.clusterNameIsUnresolvedToken
      && !(isAlphanumericName p.clusterName)
      && p.clusterName.length > 64 then
    [.invalidClusterName p.clusterName]
  else []

def saslTlsExclusiveCheck (p : ClusterModelProps) : List ClusterDiag :=
  if tlsCertArnsSet p && saslScramSet p then [.saslTlsExclusive] else []

/-- The `if / else if` pair on the client-broker encryption mode. -/
def authEncryptionCheck (p : ClusterModelProps) : List ClusterDiag :=
  if clientBrokerIs p .PLAINTEXT && (tlsCertArnsSet p || saslScramSet p) then
    [.clientAuthRequiresTls]
  else if clientBrokerIs p .TLS_PLAINTEXT && saslScramSet p then
    [.saslScramRequiresTlsOnly]
  else []

/-- `volumeSize !== undefined && (volumeSize < 1 || volumeSize > 16384)` -/
def volumeSizeDiags : Option Int → List ClusterDiag
  | some v => if v < 1 || v > 16384 then [.volumeSizeOutOfRange] else []
  | none => []

def volumeSizeCheck (p : ClusterModelProps) : List ClusterDiag :=
  volumeSizeDiags p.volumeSize

/-- All diagnostics accumulated by the constructor, in source order. -/
def clusterValidationDiags (p : ClusterModelProps) : List ClusterDiag :=
  subnetCountCheck p ++ clusterNameCheck p ++ saslTlsExclusiveCheck p
    ++ authEncryptionCheck p ++ volumeSizeCheck p

structure Connections where
  securityGroupIds : List String
deriving DecidableEq, Repr

/-- The observable state shared by `ClusterBase` and its subclasses:
`_connections` is set by the `Cluster` constructor and left unset by the
`Import` subclass created in `fromClusterArn`. -/
structure ClusterState where
  clusterArn : String
  clusterName : String
  _connections : Option Connections
deriving DecidableEq, Repr

/-- The `connections` getter on `ClusterBase`: throws when `_connections`
was never assigned. -/
def ClusterState.connections (c : ClusterState) : Except String Connections :=
  match c._connections with
  | none => .error "An imported Cluster cannot manage its security groups"
  | some conns => .ok conns

/-- `Cluster.fromClusterArn`: the `Import` subclass assigns `clusterArn`
and `clusterName` (the second `/`-separated component of the arn) but
never `_connections`. -/
def clusterFromClusterArn (clusterArn : String) : ClusterState :=
  { clusterArn := clusterArn
  , clusterName := ((clusterArn.splitOn "/").drop 1).headD ""
  , _connections := none }

/-- The `Cluster` constructor as a total state transformer: it assigns
`_connections` up front, runs every configuration check, accumulating the
diagnostics rather than aborting, and builds the `CfnCluster` resource
(whose deferred `ref` token is modelled by a placeholder arn string). -/
def clusterConstruct (p : ClusterModelProps) : ClusterState × List ClusterDiag :=
  ({ clusterArn := "Token:Resource.ref"
   , clusterName := p.clusterName
   , _connections := some { securityGroupIds := p.securityGroupIds.getD ["generated-security-group"] } },
   clusterValidationDiags p)

/-!
## Helper lemmas about JavaScript object reads and writes
-/

theorem find?_objSet_map_self (kvs : List (String × α)) (k : String) (v : α)
    (h : kvs.any (fun p => p.1 == k) = true) :
    (kvs.map (fun p => if p.1 == k then (k, v) else p)).find? (fun p => p.1 == k)
      = some (k, v) := by
  induction kvs with
  | nil => simp at h
  | cons hd tl ih =>
    rcases hd with ⟨k0, v0⟩
    by_cases hk : k0 = k
    · subst hk
      simp [List.find?]
    · have hb : (k0 == k) = false := by simp [hk]
      have htl : tl.any (fun p => p.1 == k) = true := by
        simp only [List.any_cons, hb, Bool.false_or] at h
        exact h
      simp only [List.map_cons]
      rw [if_neg (by simp [hk])]
      simp only [List.find?, hb]
      exact ih htl

theorem find?_objSet_map_other (kvs : List (String × α)) (k k2 : String) (v : α)
    (hne : k2 ≠ k) :
    (kvs.map (fun p => if p.1 == k then (k, v) else p)).find? (fun p => p.1 == k2)
      = kvs.find? (fun p => p.1 == k2) := by
  induction kvs with
  | nil => simp
  | cons hd tl ih =>
    rcases hd with ⟨k0, v0⟩
    by_cases hk : k0 = k
    · subst hk
      have hb : (k0 == k2) = false := by simpa using Ne.symm hne
      simp only [List.map_cons]
      rw [if_pos (by simp)]
      simp only [List.find?, hb]
      exact ih
    · simp only [List.map_cons]
      rw [if_neg (by simp [hk])]
      simp only [List.find?]
      by_cases hk2 : k0 = k2
      · subst hk2
        simp
      · have hb : (k0 == k2) = false := by simp [hk2]
        simp only [hb]
        exact ih

theorem find?_eq_none_of_any_eq_false (kvs : List (String × α)) (k : String)
    (h : kvs.any (fun p => p.1 == k) = false) :
    kvs.find? (fun p => p.1 == k) = none := by
  induction kvs with
  | nil => simp
  | cons hd tl ih =>
    simp only [List.any_cons, Bool.or_eq_false_iff] at h
    simp only [List.find?, h.1]
    exact ih h.2

theorem jsGet_objSet_self (kvs : List (String × JsVal)) (k : String) (v : JsVal) :
    jsGet (objSet kvs k v) k = v := by
  unfold objSet
  cases h : kvs.any (fun p => p.1 == k) with
  | true =>
    rw [if_pos rfl]
    unfold jsGet
    rw [find?_objSet_map_self kvs k v h]
  | false =>
    rw [if_neg (by simp)]
    unfold jsGet
    rw [List.find?_append, find?_eq_none_of_any_eq_false kvs k h]
    simp [List.find?, Option.or]

theorem jsGet_objSet_other (kvs : List (String × JsVal)) (k k2 : String) (v : JsVal)
    (hne : k2 ≠ k) : jsGet (objSet kvs k v) k2 = jsGet kvs k2 := by
  unfold objSet
  cases h : kvs.any (fun p => p.1 == k) with
  | true =>
    rw [if_pos rfl]
    unfold jsGet
    rw [find?_objSet_map_other kvs k k2 v hne]
  | false =>
    rw [if_neg (by simp)]
    unfold jsGet
    rw [List.find?_append]
    cases hf : kvs.find? (fun p => p.1 == k2) with
    | some p => rfl
    | none =>
      have hb : (k == k2) = false := by simpa using fun hh => hne hh.symm
      simp [List.find?, hb, Option.or]

theorem objSet_any_self (kvs : List (String × α)) (k : String) (v : α) :
    (objSet kvs k v).any (fun p => p.1 == k) = true := by
  unfold objSet
  cases h : kvs.any (fun p => p.1 == k) with
  | true =>
    rw [if_pos rfl]
    rw [List.any_eq_true]
    rcases List.any_eq_true.mp h with ⟨p, hp, hpk⟩
    refine ⟨(k, v), List.mem_map.mpr ⟨p, hp, ?_⟩, by simp⟩
    rw [if_pos hpk]
  | false =>
    rw [if_neg (by simp)]
    simp

theorem objSet_map_fst_of_any (kvs : List (String × α)) (k : String) (v : α)
    (h : kvs.any (fun p => p.1 == k) = true) :
    (objSet kvs k v).map Prod.fst = kvs.map Prod.fst := by
  unfold objSet
  rw [if_pos h, List.map_map]
  apply List.map_congr_left
  intro p _
  by_cases hp : p.1 = k
  · simp [hp]
  · rw [Function.comp_apply, if_neg (by simp [hp])]

/-!
## The per-key normalization of the principal map, stated from the spec

`specNormEntry` is written from the spec's words (rule 2-4 of the
normalization contract): an empty value list is omitted, a singleton list
becomes the bare element, a longer list stays an array — with the caveat,
forced by the source's `if (normVal)` truthiness test, that a singleton
whose element is the empty string is also omitted.
-/

def specNormEntry : String × List String → Option (String × JsVal)
  | (_, []) => none
  | (k, [v]) => if v = "" then none else some (k, JsVal.str v)
  | (k, vs) => some (k, JsVal.arr (vs.map JsVal.str))

def normalizedPrincipalEntries (p : List (String × List String)) : List (String × JsVal) :=
  p.filterMap specNormEntry

/-- The body of the fold inside `_normPrincipal`, applied to one
accumulator and one principal-map entry. -/
def principalFoldFun (acc : List (String × JsVal)) (kv : String × List String) :
    List (String × JsVal) :=
  if truthy (_norm (.arr (kv.2.map .str)))
  then acc ++ [(kv.1, _norm (.arr (kv.2.map .str)))] else acc

theorem principalFoldFun_eq (acc : List (String × JsVal)) (kv : String × List String) :
    principalFoldFun acc kv
      = (match specNormEntry kv with
         | none => acc
         | some e => acc ++ [e]) := by
  rcases kv with ⟨k, vs⟩
  match vs with
  | [] => simp [principalFoldFun, _norm, truthy, specNormEntry]
  | [v] =>
    by_cases hv : v = ""
    · subst hv
      simp [principalFoldFun, _norm, truthy, specNormEntry]
    · have hb : (v == "") = false := by simp [hv]
      simp [principalFoldFun, _norm, truthy, specNormEntry, hb, hv]
  | v1 :: v2 :: rest =>
    simp [principalFoldFun, _norm, truthy, specNormEntry]

theorem normPrincipal_foldl_eq (p : List (String × List String))
    (init : List (String × JsVal)) :
    p.foldl principalFoldFun init = init ++ normalizedPrincipalEntries p := by
  induction p generalizing init with
  | nil => simp [normalizedPrincipalEntries]
  | cons hd tl ih =>
    rw [List.foldl_cons, principalFoldFun_eq]
    cases he : specNormEntry hd with
    | none =>
      rw [ih init]
      simp [normalizedPrincipalEntries, List.filterMap_cons, he]
    | some e =>
      rw [ih (init ++ [e])]
      simp [normalizedPrincipalEntries, List.filterMap_cons, he]

theorem normPrincipal_collapse_iff (r : List (String × JsVal)) :
    ((r.length == 1 && jsGet r "AWS" == JsVal.str "*") = true)
      ↔ r = [("AWS", JsVal.str "*")] := by
  match r with
  | [] => simp [jsGet]
  | [(k, v)] =>
    by_cases hk : k = "AWS"
    · subst hk
      simp [jsGet, List.find?]
    · have hb : (k == "AWS") = false := by simp [hk]
      simp [jsGet, List.find?, hb, hk]
  | (k1, v1) :: (k2, v2) :: tl => simp [jsGet]

/-- What `_normPrincipal` computes, stated through the spec-side per-key
normalization: for a non-empty principal map, the tag-by-tag normalized
entries, collapsed to the bare wildcard string when the result is exactly
the one pair `AWS` / `"*"`. -/
theorem _normPrincipal_spec (p : List (String × List String)) (hp : p ≠ []) :
    _normPrincipal p
      = (if normalizedPrincipalEntries p = [("AWS", JsVal.str "*")]
         then JsVal.str "*" else JsVal.obj (normalizedPrincipalEntries p)) := by
  have h0 : p.isEmpty = false := by
    cases p with
    | nil => exact absurd rfl hp
    | cons hd tl => rfl
  simp only [_normPrincipal, h0, Bool.false_eq_true, if_false]
  have hfold : (fun acc (kv : String × List String) =>
      if truthy (_norm (JsVal.arr (List.map JsVal.str kv.2))) = true then
        acc ++ [(kv.1, _norm (JsVal.arr (List.map JsVal.str kv.2)))]
      else acc) = principalFoldFun := rfl
  rw [hfold, normPrincipal_foldl_eq p []]
  simp only [List.nil_append]
  by_cases hc : normalizedPrincipalEntries p = [("AWS", JsVal.str "*")]
  · rw [if_pos ((normPrincipal_collapse_iff _).mpr hc), if_pos hc]
  · rw [if_neg (fun hh => hc ((normPrincipal_collapse_iff _).mp hh)), if_neg hc]

/-!
## Claims
-/

/-- A concrete base document holding one existing statement. -/
def c1Base : List (String × JsVal) :=
  [("Statement", JsVal.arr [JsVal.obj [("Effect", JsVal.str "Allow")]])]

/-- C1 (counterexample): a `PolicyDocument` built over a base document that
contains one existing statement, with zero added statements, resolves to no
value — `isEmpty` consults only the added statements — contradicting the
claim that the base document's statement list is returned unchanged. -/
theorem c1_base_only_document_resolves_to_none :
    jsGet c1Base "Statement" = JsVal.arr [JsVal.obj [("Effect", JsVal.str "Allow")]]
    ∧ (PolicyDocument.mk (some c1Base) []).resolve = none := by
  exact ⟨rfl, rfl⟩

/-- C1 (amended): `resolve` returns no value whenever zero statements were
added, whether or not a base document was supplied; once at least one
statement has been added, the base document's statement list is kept as the
front of the emitted `Statement` array, and `Version` is kept when the base
has a truthy one and defaulted to the fixed constant otherwise. -/
theorem c1_resolve_empty_and_base_semantics :
    (∀ d : PolicyDocument, d.statements = [] → d.resolve = none)
    ∧ (∀ (base : List (String × JsVal)) (stmts : List PolicyStatement),
        stmts ≠ [] →
        ∃ doc, (PolicyDocument.mk (some base) stmts).resolve = some doc
          ∧ jsGet doc "Statement"
              = JsVal.arr (baseStatementList base ++ stmts.map PolicyStatement.resolveJson)
          ∧ jsGet doc "Version"
              = (if truthy (jsGet base "Version") then jsGet base "Version"
                 else JsVal.str "2012-10-17")) := by
  constructor
  · intro d hd
    unfold PolicyDocument.resolve
    rw [if_pos]
    unfold PolicyDocument.isEmpty
    rw [hd]
    rfl
  · intro base stmts hne
    have hempty : (PolicyDocument.mk (some base) stmts).isEmpty = false := by
      unfold PolicyDocument.isEmpty
      cases stmts with
      | nil => exact absurd rfl hne
      | cons hd tl => rfl
    unfold PolicyDocument.resolve
    rw [if_neg (by simp [hempty])]
    refine ⟨_, rfl, ?_, ?_⟩
    · rw [jsGet_objSet_self]
      rfl
    · rw [jsGet_objSet_other _ "Statement" "Version" _ (by decide),
        jsGet_objSet_self,
        jsGet_objSet_other _ "Statement" "Version" _ (by decide)]
      rfl

/-- C1 (witness): the first part of the amended theorem applied to the
document with no base and no statements. -/
theorem c1_resolve_empty_and_base_semantics_witness :
    (PolicyDocument.mk none []).statements = []
    ∧ (PolicyDocument.mk none []).resolve = none :=
  ⟨rfl, c1_resolve_empty_and_base_semantics.1 (PolicyDocument.mk none []) rfl⟩

/-- Props whose resolved cluster name violates the character-set rule but
not the length rule, every other field benign. -/
def c2Props : ClusterModelProps :=
  { clusterName := "bad name!"
  , clusterNameIsUnresolvedToken := false
  , subnetCount := 2
  , securityGroupIds := some ["sg-1"]
  , clientAuthentication := none
  , encryptionInTransit := none
  , volumeSize := none }

/-- C2 (code bug): the source guards the cluster-name diagnostic with `&&`
between the character-set violation and the length violation, so the
resolved name `"bad name!"` — non-alphanumeric, length 9 — produces no
diagnostic at all, although the message text of the check itself says the
name "must only contain alphanumeric characters and have a maximum length
of 64 characters". -/
theorem c2_charset_violation_not_flagged :
    isAlphanumericName "bad name!" = false
    ∧ "bad name!".length ≤ 64
    ∧ clusterValidationDiags c2Props = [] := by
  refine ⟨by decide, by decide, by decide⟩

/-- A statement whose only principal entry is a singleton list holding the
empty string. -/
def c3Stmt : PolicyStatement :=
  { action := [], principal := [("Service", [""])], resource := [],
    condition := [], effect := some PolicyStatementEffect.Allow, sid := none }

/-- C3 (counterexample): for the principal-type list `["Service" ↦ [""]]`,
the claim predicts the singleton collapses to the bare element, i.e.
`Principal = obj [Service ↦ ""]`; the source's `if (normVal)` truthiness
test instead drops the key, emitting the empty object. -/
theorem c3_empty_string_principal_dropped :
    c3Stmt.principal = [("Service", [""])]
    ∧ c3Stmt.toJson.Principal = JsVal.obj []
    ∧ c3Stmt.toJson.Principal ≠ JsVal.obj [("Service", JsVal.str "")] := by
  refine ⟨rfl, by decide, by decide⟩

/-- C3 (amended): on serialization a single-element array becomes the bare
element, a two-or-more-element array stays the full array in insertion
order, and an empty array makes the field absent — unconditionally for
`Action` and `Resource`; for each principal-type list the same rules apply
key by key inside the `Principal` object (see `specNormEntry` /
`normalizedPrincipalEntries`) except that a singleton list whose element is
the empty string is dropped like an empty list, and the whole object may
further collapse to the wildcard string. -/
theorem c3_toJson_array_field_normalization (s : PolicyStatement) :
    (s.action = [] → s.toJson.Action = JsVal.undefined)
    ∧ (∀ a, s.action = [a] → s.toJson.Action = JsVal.str a)
    ∧ (2 ≤ s.action.length → s.toJson.Action = JsVal.arr (s.action.map JsVal.str))
    ∧ (s.resource = [] → s.toJson.Resource = JsVal.undefined)
    ∧ (∀ r, s.resource = [r] → s.toJson.Resource = JsVal.str r)
    ∧ (2 ≤ s.resource.length → s.toJson.Resource = JsVal.arr (s.resource.map JsVal.str))
    ∧ (s.principal = [] → s.toJson.Principal = JsVal.undefined)
    ∧ (s.principal ≠ [] →
        s.toJson.Principal = JsVal.str "*"
        ∨ s.toJson.Principal = JsVal.obj (normalizedPrincipalEntries s.principal)) := by
  obtain ⟨act, pri, res, con, eff, sid⟩ := s
  refine ⟨?_, ?_, ?_, ?_, ?_, ?_, ?_, ?_⟩
  · intro h
    simp only at h
    subst h
    rfl
  · intro a h
    simp only at h
    subst h
    rfl
  · intro h
    simp only at h
    match act, h with
    | a :: b :: t, _ => rfl
  · intro h
    simp only at h
    subst h
    rfl
  · intro r h
    simp only at h
    subst h
    rfl
  · intro h
    simp only at h
    match res, h with
    | a :: b :: t, _ => rfl
  · intro h
    simp only at h
    subst h
    rfl
  · intro h
    simp only at h
    have := _normPrincipal_spec pri h
    simp only [PolicyStatement.toJson]
    rw [this]
    by_cases hc : normalizedPrincipalEntries pri = [("AWS", JsVal.str "*")]
    · rw [if_pos hc]
      exact Or.inl rfl
    · rw [if_neg hc]
      exact Or.inr rfl

/-- C3 (witness): the amended theorem applied to a statement with a
singleton action list. -/
theorem c3_toJson_array_field_normalization_witness :
    (PolicyStatement.init.addAction "s3:GetObject").action = ["s3:GetObject"]
    ∧ (PolicyStatement.init.addAction "s3:GetObject").toJson.Action
        = JsVal.str "s3:GetObject" :=
  ⟨rfl, (c3_toJson_array_field_normalization
          (PolicyStatement.init.addAction "s3:GetObject")).2.1 "s3:GetObject" rfl⟩

/-- C4: for every statement with a non-empty principal map, serialization
collapses `Principal` to the bare string `"*"` exactly when the per-key
normalized map is the single pair `AWS ↦ "*"`, and otherwise emits the
per-key normalized object. -/
theorem c4_principal_aws_wildcard_collapse (s : PolicyStatement)
    (hp : s.principal ≠ []) :
    (normalizedPrincipalEntries s.principal = [("AWS", JsVal.str "*")]
      → s.toJson.Principal = JsVal.str "*")
    ∧ (normalizedPrincipalEntries s.principal ≠ [("AWS", JsVal.str "*")]
      → s.toJson.Principal = JsVal.obj (normalizedPrincipalEntries s.principal)) := by
  have hspec := _normPrincipal_spec s.principal hp
  constructor
  · intro hc
    simp only [PolicyStatement.toJson]
    rw [hspec, if_pos hc]
  · intro hc
    simp only [PolicyStatement.toJson]
    rw [hspec, if_neg hc]

/-- C4 (witness): a statement whose principal map is exactly
`AWS ↦ ["*"]`, built through `addPrincipal` with the `Anyone` fragment,
serializes with `Principal = "*"`. -/
theorem c4_principal_aws_wildcard_collapse_witness :
    (PolicyStatement.init.addPrincipalFragment [("AWS", ["*"])] []).principal ≠ []
    ∧ (PolicyStatement.init.addPrincipalFragment [("AWS", ["*"])] []).toJson.Principal
        = JsVal.str "*" :=
  ⟨by decide,
   (c4_principal_aws_wildcard_collapse
      (PolicyStatement.init.addPrincipalFragment [("AWS", ["*"])] [])
      (by decide)).1 (by decide)⟩

/-- Two `addCondition` calls for the same operator key. -/
def c5Stmt : PolicyStatement :=
  (PolicyStatement.init.addCondition "StringEquals" (JsVal.str "x")).addCondition
    "StringEquals" (JsVal.str "y")

/-- C5 (counterexample): after adding a condition for `StringEquals` with
value `"x"` and then one with value `"y"`, the statement holds only the
later value — the earlier value is not retained alongside it, refuting the
per-key list-append claim. -/
theorem c5_addCondition_overwrites :
    c5Stmt.condition = [("StringEquals", JsVal.str "y")]
    ∧ ("StringEquals", JsVal.str "x") ∉ c5Stmt.condition := by
  refine ⟨by decide, by decide⟩

/-- C5 (amended): condition-add operations targeting the same operator key
replace: after two adds for the same key, reading that key yields the later
value, while the set and order of condition keys is unchanged by the second
add.  (`addConditions`, also used for conditions carried by a principal
fragment via `addPrincipal`, is `addCondition` key by key, so the same
holds there.) -/
theorem c5_addCondition_same_key_replaces (s : PolicyStatement) (k : String)
    (v1 v2 : JsVal) :
    jsGet ((s.addCondition k v1).addCondition k v2).condition k = v2
    ∧ ((s.addCondition k v1).addCondition k v2).condition.map Prod.fst
        = (s.addCondition k v1).condition.map Prod.fst := by
  constructor
  · exact jsGet_objSet_self _ k v2
  · exact objSet_map_fst_of_any _ k v2 (objSet_any_self s.condition k v1)

/-- A statement already holding the action `"s3:GetObject"`. -/
def c6Stmt : PolicyStatement := PolicyStatement.init.addAction "s3:GetObject"

/-- C6 (counterexample): adding an action that is already present changes
the serialized output — from the bare scalar to a two-element array holding
the duplicate — refuting the dedup-on-emit claim. -/
theorem c6_duplicate_action_changes_output :
    "s3:GetObject" ∈ c6Stmt.action
    ∧ (c6Stmt.addAction "s3:GetObject").toJson ≠ c6Stmt.toJson
    ∧ (c6Stmt.addAction "s3:GetObject").toJson.Action
        = JsVal.arr [JsVal.str "s3:GetObject", JsVal.str "s3:GetObject"] := by
  refine ⟨by decide, by decide, by decide⟩

theorem _norm_str_append_ne (xs : List String) (a : String) :
    _norm (.arr ((xs ++ [a]).map .str)) ≠ _norm (.arr (xs.map .str)) := by
  match xs with
  | [] =>
    intro h
    simp [_norm] at h
  | [x] =>
    intro h
    simp [_norm] at h
  | x :: y :: t =>
    intro h
    have e1 : _norm (.arr ((x :: y :: t ++ [a]).map .str))
        = .arr ((x :: y :: t ++ [a]).map .str) := rfl
    have e2 : _norm (.arr ((x :: y :: t).map .str))
        = .arr ((x :: y :: t).map .str) := rfl
    rw [e1, e2] at h
    have hl := congrArg List.length (JsVal.arr.inj h)
    simp only [List.length_map, List.length_append, List.length_cons] at hl
    omega

/-- C6 (amended): `actions` and `resources` are *not* deduplicated — every
`addAction` / `addResource`, an already-present element included, appends
to the collection and changes the serialized field — while emission order
of a two-or-more-element collection matches insertion order. -/
theorem c6_no_dedup_insertion_order (s : PolicyStatement) (a r : String) :
    (s.addAction a).action = s.action ++ [a]
    ∧ (s.addAction a).toJson.Action ≠ s.toJson.Action
    ∧ (s.addResource r).resource = s.resource ++ [r]
    ∧ (s.addResource r).toJson.Resource ≠ s.toJson.Resource
    ∧ (2 ≤ s.action.length → s.toJson.Action = JsVal.arr (s.action.map JsVal.str))
    ∧ (2 ≤ s.resource.length → s.toJson.Resource = JsVal.arr (s.resource.map JsVal.str)) := by
  refine ⟨rfl, ?_, rfl, ?_, ?_, ?_⟩
  · exact _norm_str_append_ne s.action a
  · exact _norm_str_append_ne s.resource r
  · intro h
    obtain ⟨act, pri, res, con, eff, sid⟩ := s
    simp only at h
    match act, h with
    | x :: y :: t, _ => rfl
  · intro h
    obtain ⟨act, pri, res, con, eff, sid⟩ := s
    simp only at h
    match res, h with
    | x :: y :: t, _ => rfl

/-- C6 (witness): the amended theorem applied to a statement holding two
actions, discharging the two-or-more hypothesis concretely. -/
theorem c6_no_dedup_insertion_order_witness :
    2 ≤ (c6Stmt.addAction "s3:PutObject").action.length
    ∧ (c6Stmt.addAction "s3:PutObject").toJson.Action
        = JsVal.arr ((c6Stmt.addAction "s3:PutObject").action.map JsVal.str) :=
  ⟨by decide,
   (c6_no_dedup_insertion_order (c6Stmt.addAction "s3:PutObject") "x" "r").2.2.2.2.1
     (by decide)⟩

theorem notMem_subnetCountCheck (p : ClusterModelProps) (d : ClusterDiag)
    (hd : ∀ n, d ≠ ClusterDiag.subnetCountTooLow n) : d ∉ subnetCountCheck p := by
  unfold subnetCountCheck
  split
  · simp [hd p.subnetCount]
  · simp

theorem notMem_clusterNameCheck (p : ClusterModelProps) (d : ClusterDiag)
    (hd : ∀ n, d ≠ ClusterDiag.invalidClusterName n) : d ∉ clusterNameCheck p := by
  unfold clusterNameCheck
  split
  · simp [hd p.clusterName]
  · simp

theorem notMem_saslTlsExclusiveCheck (p : ClusterModelProps) (d : ClusterDiag)
    (hd : d ≠ ClusterDiag.saslTlsExclusive) : d ∉ saslTlsExclusiveCheck p := by
  unfold saslTlsExclusiveCheck
  split
  · simp [hd]
  · simp

theorem notMem_volumeSizeCheck (p : ClusterModelProps) (d : ClusterDiag)
    (hd : d ≠ ClusterDiag.volumeSizeOutOfRange) : d ∉ volumeSizeCheck p := by
  unfold volumeSizeCheck
  cases p.volumeSize with
  | none => simp [volumeSizeDiags]
  | some v =>
    simp only [volumeSizeDiags]
    split
    · simp [hd]
    · simp

theorem mem_volumeSizeCheck_iff (p : ClusterModelProps) :
    ClusterDiag.volumeSizeOutOfRange ∈ volumeSizeCheck p
      ↔ ∃ v, p.volumeSize = some v ∧ (v < 1 ∨ 16384 < v) := by
  unfold volumeSizeCheck
  cases hvs : p.volumeSize with
  | none => simp [volumeSizeDiags]
  | some v =>
    simp only [volumeSizeDiags]
    constructor
    · intro h
      split at h
      · rename_i hcond
        refine ⟨v, rfl, by simpa using hcond⟩
      · simp at h
    · rintro ⟨v0, hv0, hr⟩
      injection hv0 with hv0
      subst hv0
      rw [if_pos (by rcases hr with h | h <;> simp [h])]
      simp

theorem notMem_authEncryptionCheck (p : ClusterModelProps) (d : ClusterDiag)
    (hd1 : d ≠ ClusterDiag.clientAuthRequiresTls)
    (hd2 : d ≠ ClusterDiag.saslScramRequiresTlsOnly) : d ∉ authEncryptionCheck p := by
  unfold authEncryptionCheck
  split
  · simp [hd1]
  · split
    · simp [hd2]
    · simp

/-- C7: with client-broker encryption `PLAINTEXT` and client authentication
enabled (TLS certificate-authority arns present, or SASL/SCRAM on), the
accumulated diagnostics contain the authentication/TLS-mismatch diagnostic
exactly once, and the `TLS_PLAINTEXT`-specific SASL/SCRAM diagnostic not at
all. -/
theorem c7_plaintext_auth_single_diag (p : ClusterModelProps)
    (hb : clientBrokerIs p ClientBrokerEncryption.PLAINTEXT = true)
    (ha : (tlsCertArnsSet p || saslScramSet p) = true) :
    (clusterValidationDiags p).count ClusterDiag.clientAuthRequiresTls = 1
    ∧ ClusterDiag.saslScramRequiresTlsOnly ∉ clusterValidationDiags p := by
  have henc : authEncryptionCheck p = [ClusterDiag.clientAuthRequiresTls] := by
    unfold authEncryptionCheck
    rw [if_pos (by simp [hb, ha])]
  constructor
  · simp only [clusterValidationDiags, List.count_append, henc]
    rw [List.count_eq_zero.mpr (notMem_subnetCountCheck p _ (by intro n h; cases h)),
      List.count_eq_zero.mpr (notMem_clusterNameCheck p _ (by intro n h; cases h)),
      List.count_eq_zero.mpr (notMem_saslTlsExclusiveCheck p _ (by intro h; cases h)),
      List.count_eq_zero.mpr (notMem_volumeSizeCheck p _ (by intro h; cases h))]
    simp
  · intro hmem
    simp only [clusterValidationDiags, List.mem_append, henc] at hmem
    rcases hmem with ((((h | h) | h) | h) | h)
    · exact notMem_subnetCountCheck p _ (by intro n hx; cases hx) h
    · exact notMem_clusterNameCheck p _ (by intro n hx; cases hx) h
    · exact notMem_saslTlsExclusiveCheck p _ (by intro hx; cases hx) h
    · simp at h
    · exact notMem_volumeSizeCheck p _ (by intro hx; cases hx) h

/-- Props with plaintext-only client-broker traffic and SASL/SCRAM on. -/
def c7Props : ClusterModelProps :=
  { clusterName := "cluster1"
  , clusterNameIsUnresolvedToken := false
  , subnetCount := 2
  , securityGroupIds := none
  , clientAuthentication := some
      { tls := none, sasl := some { scram := some true } }
  , encryptionInTransit := some
      { clientBroker := some ClientBrokerEncryption.PLAINTEXT, enableInCluster := none }
  , volumeSize := some 1000 }

/-- C7 (witness): the theorem applied to `c7Props`. -/
theorem c7_plaintext_auth_single_diag_witness :
    clientBrokerIs c7Props ClientBrokerEncryption.PLAINTEXT = true
    ∧ (tlsCertArnsSet c7Props || saslScramSet c7Props) = true
    ∧ (clusterValidationDiags c7Props).count ClusterDiag.clientAuthRequiresTls = 1
    ∧ ClusterDiag.saslScramRequiresTlsOnly ∉ clusterValidationDiags c7Props :=
  ⟨by decide, by decide,
   (c7_plaintext_auth_single_diag c7Props (by decide) (by decide)).1,
   (c7_plaintext_auth_single_diag c7Props (by decide) (by decide)).2⟩

/-- C8: the storage-volume diagnostic is emitted exactly when a volume size
was given and lies outside the inclusive range 1 to 16384; in particular 0
and 16385 are flagged while 1, 16384 and an unspecified size are not. -/
theorem c8_volume_size_diag_iff (p : ClusterModelProps) :
    ClusterDiag.volumeSizeOutOfRange ∈ clusterValidationDiags p
      ↔ ∃ v, p.volumeSize = some v ∧ (v < 1 ∨ 16384 < v) := by
  constructor
  · intro hmem
    simp only [clusterValidationDiags, List.mem_append] at hmem
    rcases hmem with ((((h | h) | h) | h) | h)
    · exact absurd h (notMem_subnetCountCheck p _ (by intro n hx; cases hx))
    · exact absurd h (notMem_clusterNameCheck p _ (by intro n hx; cases hx))
    · exact absurd h (notMem_saslTlsExclusiveCheck p _ (by intro hx; cases hx))
    · exact absurd h (notMem_authEncryptionCheck p _
        (by intro hx; cases hx) (by intro hx; cases hx))
    · exact (mem_volumeSizeCheck_iff p).mp h
  · intro hex
    simp only [clusterValidationDiags, List.mem_append]
    exact Or.inr ((mem_volumeSizeCheck_iff p).mpr hex)

/-- C9: the `connections` getter hard-fails (throws) on every cluster
imported via `fromClusterArn` — the `Import` subclass never assigns
`_connections` — while on every directly constructed `Cluster` it succeeds;
and construction itself is total: for every props value it returns a state
together with the accumulated (possibly non-empty) diagnostics instead of
aborting. -/
theorem c9_connections_imported_throws (arn : String) (p : ClusterModelProps) :
    (clusterFromClusterArn arn).connections
        = Except.error "An imported Cluster cannot manage its security groups"
    ∧ (∃ c, ((clusterConstruct p).1).connections = Except.ok c)
    ∧ (clusterConstruct p).2 = clusterValidationDiags p := by
  exact ⟨rfl, ⟨_, rfl⟩, rfl⟩

/-!
## C10: reachable statements through the builder interface

`BuilderOp` enumerates the public mutators of `PolicyStatement` (only
`limitToAccount`, whose value is a lazily-resolved token, is left out; it
is `addCondition` with an opaque value and touches `condition` only).
-/

inductive BuilderOp where
  | addAction : String → BuilderOp
  | addActions : List String → BuilderOp
  | addResource : String → BuilderOp
  | addResources : List String → BuilderOp
  | addAllResources : BuilderOp
  | describe : String → BuilderOp
  | allow : BuilderOp
  | deny : BuilderOp
  | addCondition : String → JsVal → BuilderOp
  | addConditions : List (String × JsVal) → BuilderOp
  | addPrincipalFragment : List (String × List String) → List (String × JsVal) → BuilderOp
deriving Repr

def applyOp (s : PolicyStatement) : BuilderOp → PolicyStatement
  | .addAction a => s.addAction a
  | .addActions as => s.addActions as
  | .addResource r => s.addResource r
  | .addResources rs => s.addResources rs
  | .addAllResources => s.addAllResources
  | .describe sid => s.describe sid
  | .allow => s.allow
  | .deny => s.deny
  | .addCondition k v => s.addCondition k v
  | .addConditions conds => s.addConditions conds
  | .addPrincipalFragment frag conds => s.addPrincipalFragment frag conds

def applyOps (s : PolicyStatement) (ops : List BuilderOp) : PolicyStatement :=
  ops.foldl applyOp s

theorem foldl_addAction_effect (as : List String) (s : PolicyStatement) :
    (as.foldl PolicyStatement.addAction s).effect = s.effect := by
  induction as generalizing s with
  | nil => rfl
  | cons a t ih =>
    rw [List.foldl_cons, ih]
    rfl

theorem foldl_addResource_effect (rs : List String) (s : PolicyStatement) :
    (rs.foldl PolicyStatement.addResource s).effect = s.effect := by
  induction rs generalizing s with
  | nil => rfl
  | cons r t ih =>
    rw [List.foldl_cons, ih]
    rfl

theorem addConditions_effect (conds : List (String × JsVal)) (s : PolicyStatement) :
    (s.addConditions conds).effect = s.effect := by
  unfold PolicyStatement.addConditions
  induction conds generalizing s with
  | nil => rfl
  | cons c t ih =>
    rw [List.foldl_cons, ih]
    rfl

theorem applyOp_effect_isSome (s : PolicyStatement) (op : BuilderOp)
    (h : s.effect.isSome = true) : (applyOp s op).effect.isSome = true := by
  cases op with
  | addAction a => exact h
  | addActions as =>
    simp only [applyOp, PolicyStatement.addActions, foldl_addAction_effect]
    exact h
  | addResource r => exact h
  | addResources rs =>
    simp only [applyOp, PolicyStatement.addResources, foldl_addResource_effect]
    exact h
  | addAllResources => exact h
  | describe sid => exact h
  | allow => rfl
  | deny => rfl
  | addCondition k v => exact h
  | addConditions conds =>
    simp only [applyOp, addConditions_effect]
    exact h
  | addPrincipalFragment frag conds =>
    simp only [applyOp, PolicyStatement.addPrincipalFragment, addConditions_effect]
    exact h

theorem applyOps_effect_isSome (ops : List BuilderOp) (s : PolicyStatement)
    (h : s.effect.isSome = true) : (applyOps s ops).effect.isSome = true := by
  induction ops generalizing s with
  | nil => exact h
  | cons op t ih => exact ih (applyOp s op) (applyOp_effect_isSome s op h)

/-- C10: a statement created with no effect argument starts with effect
`Allow`, and after any sequence of builder calls on a statement created
with any effect, the serialized `Effect` field is never absent. -/
theorem c10_effect_always_present :
    PolicyStatement.init.effect = some PolicyStatementEffect.Allow
    ∧ ∀ (e : PolicyStatementEffect) (ops : List BuilderOp),
        (applyOps (PolicyStatement.initWith e) ops).toJson.Effect ≠ JsVal.undefined := by
  refine ⟨rfl, ?_⟩
  intro e ops
  have h := applyOps_effect_isSome ops (PolicyStatement.initWith e) rfl
  obtain ⟨e0, he0⟩ := Option.isSome_iff_exists.mp h
  simp only [PolicyStatement.toJson, he0]
  cases e0 <;> simp [_norm, PolicyStatementEffect.value]
